import Mathlib

/-!
Verification development for the arcade-shooter repository (three pygame
variants: Isaiah.py, a capped and pooled variant; Kuba.py, an uncapped
variant with hostile star bullets; member3.py, a display stub holding the
star-polygon helper).

Modelling conventions:
- Python floats are embedded as exact rationals; decimal literals such as
  0.12 denote the corresponding rational.
- pygame.Rect coerces each float argument to an integer by truncation
  toward zero (C long cast); ratTrunc models that coercion.
- Python list.remove removes the first occurrence of an identical object
  and the game loops wrap it in try/except ValueError: pass; removeFirst
  models remove-first-if-present.  The entity classes define no custom
  equality, so Python removal is by object identity; pooled Star objects
  are therefore represented by their pool index, and entities that are
  structurally distinct in every state we evaluate make structural removal
  coincide with identity removal.
- collections.deque with maxlen n, written to with appendleft, keeps the
  newest sample at the head and silently evicts from the tail once full;
  trailAppend models one appendleft.
- Randomness (spawn coordinates, particle velocities and lifetimes) and
  the millisecond clock are inputs of each frame: random draws appear as
  seed arguments, the clock as an integer argument now.
- math.cos, math.sin and math.pi are parameters of the geometry utility,
  instantiated with the real functions Real.cos, Real.sin and Real.pi in
  the theorems about it.
-/

/-- Truncation of a rational toward zero, as CPython and pygame.Rect coerce
a float to an int.  Int division of the numerator by the denominator
truncates toward zero. -/
def ratTrunc (q : ℚ) : ℤ := q.num / (q.den : ℤ)

/-- Axis-aligned rectangle with integer fields, as pygame.Rect stores. -/
structure Rect where
  left : ℤ
  top : ℤ
  w : ℤ
  h : ℤ
deriving DecidableEq

/-- pygame Rect.colliderect: true when the two rectangles share area
(strict inequalities, so touching edges do not collide). -/
def Rect.colliderect (a b : Rect) : Bool :=
  decide (a.left < b.left + b.w ∧ b.left < a.left + a.w ∧
          a.top < b.top + b.h ∧ b.top < a.top + a.h)

/-- Python list.remove wrapped in try/except ValueError: pass — remove the
first occurrence if present, otherwise leave the list unchanged. -/
def removeFirst {α : Type} [DecidableEq α] (a : α) : List α → List α
  | [] => []
  | b :: t => if b = a then t else b :: removeFirst a t

/-- One appendleft on a collections.deque with maxlen cap: the new sample
becomes the head and the list is cut to cap samples, so the tail (oldest)
sample is evicted once the deque is full. -/
def trailAppend (cap : ℕ) (p : ℚ × ℚ) (t : List (ℚ × ℚ)) : List (ℚ × ℚ) :=
  (p :: t).take cap

namespace Isaiah

/-- Config constants of Isaiah.py (SCREEN_W 900, SCREEN_H 640). -/
def SCREEN_W : ℚ := 900
def SCREEN_H : ℚ := 640
def CANNON_SPEED : ℚ := 7
def LASER_SPEED : ℚ := 10
def LASER_COOLDOWN_MS : ℤ := 180
def STAR_SPAWN_INTERVAL_MS : ℤ := 900
def STAR_TRAIL_LEN : ℕ := 6
def MAX_STARS : ℕ := 6
def MAX_LASERS : ℕ := 12
def MAX_PARTICLES : ℕ := 120

/-- Cannon state: x is clamped by update; y, w, h are the constants set in
the constructor (y = SCREEN_H - 48 = 592, w = 68, h = 22). -/
structure Cannon where
  x : ℚ
  lives : ℤ
  score : ℤ
deriving DecidableEq

/-- Cannon width (self.w = 68) and vertical position (self.y = 592). -/
def Cannon.w : ℚ := 68
def Cannon.y : ℚ := 592

/-- Cannon.update: x += dx then clamp to max(w//2 + 8, min(SCREEN_W - w//2 - 8, x)),
that is max 42 (min 858 x). -/
def Cannon.update (dx : ℚ) (c : Cannon) : Cannon :=
  { c with x := max (34 + 8) (min (SCREEN_W - 34 - 8) (c.x + dx)) }

/-- Laser record: position and radius (r = 4 at construction). -/
structure Laser where
  x : ℚ
  y : ℚ
  r : ℚ
deriving DecidableEq

/-- Laser.update: y -= LASER_SPEED. -/
def Laser.update (l : Laser) : Laser := { l with y := l.y - LASER_SPEED }

/-- Laser.offscreen: y < -20. -/
def Laser.offscreen (l : Laser) : Bool := decide (l.y < -20)

/-- Laser.rect: pygame.Rect(x - r, y - r, r*2, r*2) with float arguments
truncated by the Rect constructor. -/
def Laser.rect (l : Laser) : Rect :=
  ⟨ratTrunc (l.x - l.r), ratTrunc (l.y - l.r), ratTrunc (l.r * 2), ratTrunc (l.r * 2)⟩

/-- Star record of Isaiah.py (the falling target), including the trail of
recorded centers, newest first as the deque stores them. -/
structure Star where
  x : ℚ
  y : ℚ
  vx : ℚ
  vy : ℚ
  outer_r : ℚ
  rotation : ℚ
  rotation_speed : ℚ
  trail : List (ℚ × ℚ)
deriving DecidableEq

/-- Default star used as the List.getD fallback; never reached in states
whose pool indices are in range. -/
def defaultStar : Star :=
  { x := 0, y := 0, vx := 0, vy := 0, outer_r := 0,
    rotation := 0, rotation_speed := 0, trail := [] }

/-- One random draw of Star.reset: x in [40, 860], y = -yOff with yOff in
[20, 90], vx in [-1, 1], vy in [1.6, 3], outer_r an integer in [22, 36],
rotation in [0, 2*pi), rotation_speed in [-0.03, 0.03]. -/
structure ResetSeed where
  x : ℚ
  yOff : ℚ
  vx : ℚ
  vy : ℚ
  outer_r : ℚ
  rotation : ℚ
  rotation_speed : ℚ
deriving DecidableEq

/-- Star.reset with its random draws supplied by the seed.  The trail is
pre-seeded by six appendleft calls with points (x, y - start_above - i*vy*0.6)
for i = 0..5, where start_above = max(0, int(outer_r * 0.8)); after the
loop the deque holds the i = 5 point first and the i = 0 point last. -/
def Star.reset (sd : ResetSeed) : Star :=
  let y : ℚ := -sd.yOff
  let startAbove : ℚ := ((max 0 (ratTrunc (sd.outer_r * 0.8)) : ℤ) : ℚ)
  { x := sd.x, y := y, vx := sd.vx, vy := sd.vy, outer_r := sd.outer_r,
    rotation := sd.rotation, rotation_speed := sd.rotation_speed,
    trail := ((List.range STAR_TRAIL_LEN).reverse).map
      (fun i => (sd.x, y - startAbove - (i : ℚ) * sd.vy * 0.6)) }

/-- Star.update: appendleft (x, y - outer_r*0.6) to the trail, then
x += vx, y += vy, rotation += rotation_speed, then bounce on the side
margins: if x < 20 set x = 20 and negate vx, elif x > SCREEN_W - 20 set
x = SCREEN_W - 20 and negate vx. -/
def Star.update (s : Star) : Star :=
  let trail := trailAppend STAR_TRAIL_LEN (s.x, s.y - s.outer_r * 0.6) s.trail
  let x := s.x + s.vx
  let y := s.y + s.vy
  let rotation := s.rotation + s.rotation_speed
  if x < 20 then
    { s with trail := trail, x := 20, y := y, rotation := rotation, vx := -s.vx }
  else if SCREEN_W - 20 < x then
    { s with trail := trail, x := SCREEN_W - 20, y := y, rotation := rotation, vx := -s.vx }
  else
    { s with trail := trail, x := x, y := y, rotation := rotation }

/-- Star.offscreen_bottom: y - outer_r > SCREEN_H + 10. -/
def Star.offscreen_bottom (s : Star) : Bool := decide (SCREEN_H + 10 < s.y - s.outer_r)

/-- Star.rect: r = int(outer_r); pygame.Rect(x - r, y - r, r*2, r*2). -/
def Star.rect (s : Star) : Rect :=
  let r : ℤ := ratTrunc s.outer_r
  ⟨ratTrunc (s.x - (r : ℚ)), ratTrunc (s.y - (r : ℚ)), r * 2, r * 2⟩

/-- Particle record: position, velocity, age, lifetime, size, color. -/
structure Particle where
  x : ℚ
  y : ℚ
  vx : ℚ
  vy : ℚ
  age : ℕ
  life : ℕ
  size : ℕ
  color : ℕ × ℕ × ℕ
deriving DecidableEq

/-- Particle.update: x += vx, y += vy, then vy += 0.12 (gravity),
vx *= 0.99 (drag), age += 1. -/
def Particle.update (p : Particle) : Particle :=
  { p with x := p.x + p.vx, y := p.y + p.vy,
           vy := p.vy + 0.12, vx := p.vx * 0.99, age := p.age + 1 }

/-- Particle.alive: age < life. -/
def Particle.alive (p : Particle) : Bool := decide (p.age < p.life)

/-- Cap-guarded burst: for each of count iterations, append the next fresh
particle only when len(particles) < MAX_PARTICLES, mirroring the literal
loop at both emission sites of Isaiah.py. -/
def emitBurst (count : ℕ) (mk : ℕ → Particle) (ps : List Particle) : List Particle :=
  (List.range count).foldl
    (fun acc i => if acc.length < MAX_PARTICLES then acc ++ [mk i] else acc) ps

/-- Whole session state of Isaiah.main: the cannon, the live collections,
the two spawn timers and the loop flag.  Live Star objects are pool
indices into the pre-allocated star_pool, modelling Python references. -/
structure IState where
  cannon : Cannon
  lasers : List Laser
  pool : List Star
  stars : List ℕ
  particles : List Particle
  last_laser_time : ℤ
  last_star_spawn : ℤ
  running : Bool
deriving DecidableEq

/-- Auto-fire gate: if now - last_laser_time >= 180 and len(lasers) < 12,
append a laser at (cannon.x, cannon.y - 30) and set last_laser_time = now. -/
def laserFire (now : ℤ) (st : IState) : IState :=
  if LASER_COOLDOWN_MS ≤ now - st.last_laser_time ∧ st.lasers.length < MAX_LASERS then
    { st with lasers := st.lasers ++ [⟨st.cannon.x, Cannon.y - 30, 4⟩],
              last_laser_time := now }
  else st

/-- Star spawn gate: if now - last_star_spawn >= 900 then (if len(stars) < 6,
reset the pool slot star_pool[len(stars)] and append it to the active list);
the timer is set to now whenever the interval has elapsed, whether or not
the cap allowed the spawn. -/
def starSpawn (now : ℤ) (sd : ResetSeed) (st : IState) : IState :=
  if STAR_SPAWN_INTERVAL_MS ≤ now - st.last_star_spawn then
    if st.stars.length < MAX_STARS then
      { st with pool := st.pool.set st.stars.length (Star.reset sd),
                stars := st.stars ++ [st.stars.length],
                last_star_spawn := now }
    else { st with last_star_spawn := now }
  else st

/-- Laser phase: update every laser, then keep the non-offscreen ones. -/
def lasersPhase (st : IState) : IState :=
  { st with lasers := (st.lasers.map Laser.update).filter (fun l => ! l.offscreen) }

/-- Star phase: s.update() for each active reference in order, mutating the
pooled object in the heap; a duplicated reference is updated twice. -/
def starsPhase (st : IState) : IState :=
  { st with pool := st.stars.foldl
              (fun pool r => pool.set r (Star.update (pool.getD r defaultStar))) st.pool }

/-- Particle phase: update all particles, then keep only the alive ones,
truncated to MAX_PARTICLES. -/
def particlesPhase (st : IState) : IState :=
  { st with particles :=
              ((st.particles.map Particle.update).filter Particle.alive).take MAX_PARTICLES }

/-- Collision predicate between a laser and a pooled star. -/
def lsCollide (l : Laser) (s : Star) : Bool := Rect.colliderect l.rect s.rect

/-- Collision resolver of Isaiah.main: iterate the snapshot lasers_copy;
for each laser scan the snapshot stars_copy taken once before the loop and
take the first colliding star; on a hit remove the laser and the star from
the live lists (ignoring a missing element like the try/except does), emit
up to 18 particles through the cap guard, add 10 to the score, and break to
the next laser.  The stale stars_copy snapshot is exactly what the source
iterates.  colStep is the state change of one hit. -/
def colStep (mk : ℕ → ℕ → Particle) (i : ℕ) (l : Laser) (r : ℕ)
    (st : IState) : IState :=
  { st with lasers := removeFirst l st.lasers,
            stars := removeFirst r st.stars,
            particles := emitBurst 18 (mk i) st.particles,
            cannon := { st.cannon with score := st.cannon.score + 10 } }

/-- Loop of the collision resolver over the lasers_copy snapshot. -/
def colGo (mk : ℕ → ℕ → Particle) (starsCopy : List ℕ) :
    ℕ → List Laser → IState → IState
  | _, [], st => st
  | i, l :: rest, st =>
    match starsCopy.find? (fun r => lsCollide l (st.pool.getD r defaultStar)) with
    | some r => colGo mk starsCopy (i + 1) rest (colStep mk i l r st)
    | none => colGo mk starsCopy (i + 1) rest st

/-- Collision phase entry point: both snapshots are the live lists as they
stand when the pass begins. -/
def collisionPass (mk : ℕ → ℕ → Particle) (st : IState) : IState :=
  colGo mk st.stars 0 st.lasers st

/-- Bottom-boundary pass of Isaiah.main over the snapshot stars[:]: each
reference whose star satisfies offscreen_bottom is removed from the live
list, costs one life, emits up to 8 feedback particles through the cap
guard, and sets running = False when the decremented lives is <= 0.
bpStep is the state change of one miss. -/
def bpStep (mk : ℕ → ℕ → Particle) (i r : ℕ) (st : IState) : IState :=
  { st with stars := removeFirst r st.stars,
            cannon := { st.cannon with lives := st.cannon.lives - 1 },
            particles := emitBurst 8 (mk i) st.particles,
            running := if st.cannon.lives - 1 ≤ 0 then false else st.running }

/-- Loop of the bottom-boundary pass over the stars[:] snapshot. -/
def bpGo (mk : ℕ → ℕ → Particle) : ℕ → List ℕ → IState → IState
  | _, [], st => st
  | i, r :: rest, st =>
    if (st.pool.getD r defaultStar).offscreen_bottom then
      bpGo mk (i + 1) rest (bpStep mk i r st)
    else bpGo mk (i + 1) rest st

/-- Bottom-boundary phase entry point. -/
def bottomPass (mk : ℕ → ℕ → Particle) (st : IState) : IState :=
  bpGo mk 0 st.stars st

/-- Per-frame input: the quit signal from the event queue, the held
direction flags, the millisecond clock, and the random draws consumed by
this frame. -/
structure FrameIn where
  quitEv : Bool
  moveL : Bool
  moveR : Bool
  now : ℤ
  starSeed : ResetSeed
  hitMk : ℕ → ℕ → Particle
  missMk : ℕ → ℕ → Particle

/-- Horizontal input: dx = 0, minus CANNON_SPEED if left is held, plus
CANNON_SPEED if right is held. -/
def inDx (inp : FrameIn) : ℚ :=
  (if inp.moveL then -CANNON_SPEED else 0) + (if inp.moveR then CANNON_SPEED else 0)

/-- Everything one frame of Isaiah.main does before the bottom-boundary
pass, in the source order: events (quit), cannon update, laser auto-fire,
star spawn, laser update and cull, star update, particle update and cull,
collision resolution. -/
def preBottom (inp : FrameIn) (st : IState) : IState :=
  let st1 := { st with running := st.running && ! inp.quitEv }
  let st2 := { st1 with cannon := st1.cannon.update (inDx inp) }
  let st3 := laserFire inp.now st2
  let st4 := starSpawn inp.now inp.starSeed st3
  let st5 := lasersPhase st4
  let st6 := starsPhase st5
  let st7 := particlesPhase st6
  collisionPass inp.hitMk st7

/-- One full frame of the Isaiah.main while-loop body (the rendering calls
touch no simulation state).  The HUD of this frame renders the score and
lives of the returned state, and the loop continues iff running is true. -/
def frame (inp : FrameIn) (st : IState) : IState :=
  bottomPass inp.missMk (preBottom inp st)

/-- Initial session state: fresh cannon (3 lives, score 0, x at the field
center), empty live lists, a pre-allocated pool of six reset stars, both
timers at 0, loop running. -/
def initState (seeds : ℕ → ResetSeed) : IState :=
  { cannon := { x := 450, lives := 3, score := 0 },
    lasers := [],
    pool := (List.range MAX_STARS).map (fun i => Star.reset (seeds i)),
    stars := [],
    particles := [],
    last_laser_time := 0,
    last_star_spawn := 0,
    running := true }

end Isaiah

namespace Kuba

/-- Config constants of Kuba.py (SCREEN_W 800, SCREEN_H 600); this variant
defines no cap on lasers, stars or particles. -/
def SCREEN_W : ℚ := 800
def SCREEN_H : ℚ := 600
def LASER_SPEED : ℚ := 9
def LASER_COOLDOWN_MS : ℤ := 200
def STAR_SPAWN_INTERVAL_MS : ℤ := 700
def STAR_TRAIL_LENGTH : ℕ := 12

/-- Laser record of Kuba.py (radius = 4 at construction). -/
structure Laser where
  x : ℚ
  y : ℚ
  radius : ℚ
deriving DecidableEq

/-- Particle record of Kuba.py. -/
structure Particle where
  x : ℚ
  y : ℚ
  vx : ℚ
  vy : ℚ
  life : ℕ
  color : ℕ × ℕ × ℕ
  age : ℕ
  size : ℕ
deriving DecidableEq

/-- Star record of Kuba.py: circle body of the given radius, twinkle angle,
trail of previous centers (deque maxlen 12, newest first), alive flag set
in the constructor and never read. -/
structure Star where
  x : ℚ
  y : ℚ
  vx : ℚ
  vy : ℚ
  radius : ℚ
  angle : ℚ
  angle_speed : ℚ
  trail : List (ℚ × ℚ)
  alive : Bool
deriving DecidableEq

/-- Star.update of Kuba.py: appendleft (x, y), move, rotate, bounce on the
side margins 10 and SCREEN_W - 10 = 790 negating vx at a clamp. -/
def Star.update (s : Star) : Star :=
  let trail := trailAppend STAR_TRAIL_LENGTH (s.x, s.y) s.trail
  let x := s.x + s.vx
  let y := s.y + s.vy
  let angle := s.angle + s.angle_speed
  if x < 10 then
    { s with trail := trail, x := 10, y := y, angle := angle, vx := -s.vx }
  else if SCREEN_W - 10 < x then
    { s with trail := trail, x := SCREEN_W - 10, y := y, angle := angle, vx := -s.vx }
  else
    { s with trail := trail, x := x, y := y, angle := angle }

/-- Star.offscreen of Kuba.py: y > SCREEN_H + 50 = 650. -/
def Star.offscreen (s : Star) : Bool := decide (SCREEN_H + 50 < s.y)

/-- Auto-fire of Kuba.main: if now - last_laser_time >= 200 append a laser
at (cannon.x, cannon.y - 32) and set the timer to now; there is no cap
conjunct in this variant. -/
def autoFire (now last : ℤ) (lasers : List Laser) (cx cy : ℚ) : List Laser × ℤ :=
  if LASER_COOLDOWN_MS ≤ now - last then (lasers ++ [⟨cx, cy - 32, 4⟩], now)
  else (lasers, last)

/-- Hit burst of Kuba.main: for _ in range(14): particles.append(...) —
every particle is appended unconditionally, with no cap guard. -/
def hitBurst (mk : ℕ → Particle) (ps : List Particle) : List Particle :=
  ps ++ (List.range 14).map mk

/-- Slice of the Kuba.main session state touched around the bottom-boundary
step: lives and score of the cannon, the live stars and particles. -/
structure GameState where
  lives : ℤ
  score : ℤ
  stars : List Star
  particles : List Particle
deriving DecidableEq

/-- The bottom-boundary step of Kuba.main, the line
stars = [s for s in stars if not s.offscreen()]: offscreen stars are
dropped and nothing else in the state is touched — no life is lost and no
feedback burst is emitted (this variant loses lives to hostile star
bullets hitting the cannon instead). -/
def cullStars (st : GameState) : GameState :=
  { st with stars := st.stars.filter (fun s => ! s.offscreen) }

end Kuba

/-- star_points of Isaiah.py: ordered vertex list of the 5-point star
polygon centered at (cx, cy).  The loop starts at angle = rotation and
advances by step = pi / 5 each iteration, using the outer radius at even
steps and outer_r * inner_r_ratio at odd steps; the angle at iteration i
is rotation + i * step.  The trigonometric functions and pi of the math
module are passed as parameters and instantiated with Real.cos, Real.sin
and Real.pi in the theorems. -/
def star_points {K : Type} [Field K] (cosf sinf : K → K) (pi : K)
    (cx cy outer_r inner_r_ratio rotation : K) : List (K × K) :=
  (List.range (5 * 2)).map (fun (i : ℕ) =>
    let r := if i % 2 = 0 then outer_r else outer_r * inner_r_ratio
    let angle := rotation + (i : K) * (pi / 5)
    (cx + cosf angle * r, cy + sinf angle * r))

namespace Member3

/-- Vertex list computed inside draw_star of member3.py: outer radius is
size, inner radius size * 0.45, the angle starts at pi / 2 and advances by
pi / 5, and the y axis is flipped (y - sin(angle) * r). -/
def draw_star_pts {K : Type} [Field K] (cosf sinf : K → K) (pi : K)
    (x y size : K) : List (K × K) :=
  (List.range (5 * 2)).map (fun (i : ℕ) =>
    let r := if i % 2 = 0 then size else size * 0.45
    let angle := pi / 2 + (i : K) * (pi / 5)
    (x + cosf angle * r, y - sinf angle * r))

end Member3

namespace Isaiah

/-- Offscreen-bottom test of the pooled star a reference points to. -/
def offB (pool : List Star) (r : ℕ) : Bool := (pool.getD r defaultStar).offscreen_bottom

end Isaiah

lemma removeFirst_length_le {α : Type} [DecidableEq α] (a : α) :
    ∀ l : List α, (removeFirst a l).length ≤ l.length := by
  intro l
  induction l with
  | nil => simp [removeFirst]
  | cons b t ih =>
    by_cases h : b = a
    · simp [removeFirst, h]
    · simp only [removeFirst, if_neg h, List.length_cons]
      omega

lemma removeFirst_cons_of_ne {α : Type} [DecidableEq α] {a b : α} (l : List α)
    (h : b ≠ a) : removeFirst a (b :: l) = b :: removeFirst a l := by
  simp [removeFirst, h]

lemma foldl_removeFirst_not_mem {α : Type} [DecidableEq α] (a : α) :
    ∀ (ds : List α) (xs : List α), a ∉ ds →
      ds.foldl (fun acc r => removeFirst r acc) (a :: xs) =
        a :: ds.foldl (fun acc r => removeFirst r acc) xs := by
  intro ds
  induction ds with
  | nil => intro xs _; rfl
  | cons d ds ih =>
    intro xs hmem
    have hda : a ≠ d := by
      intro h; exact hmem (h ▸ List.mem_cons_self d ds)
    have hm : a ∉ ds := fun h => hmem (List.mem_cons_of_mem d h)
    simp only [List.foldl_cons]
    rw [removeFirst_cons_of_ne _ hda, ih _ hm]

lemma foldl_removeFirst_filter {α : Type} [DecidableEq α] (P : α → Bool) :
    ∀ xs : List α, xs.Nodup →
      (xs.filter P).foldl (fun acc r => removeFirst r acc) xs =
        xs.filter (fun x => ! P x) := by
  intro xs
  induction xs with
  | nil => intro _; rfl
  | cons a t ih =>
    intro hnd
    have hat : a ∉ t := (List.nodup_cons.mp hnd).1
    have hnt : t.Nodup := (List.nodup_cons.mp hnd).2
    by_cases hPa : P a
    · have h1 : (a :: t).filter P = a :: t.filter P := by simp [hPa]
      have h2 : (a :: t).filter (fun x => ! P x) = t.filter (fun x => ! P x) := by
        simp [hPa]
      rw [h1, h2, List.foldl_cons]
      have h3 : removeFirst a (a :: t) = t := by simp [removeFirst]
      rw [h3, ih hnt]
    · have hPa' : P a = false := by simpa using hPa
      have h1 : (a :: t).filter P = t.filter P := by simp [hPa']
      have h2 : (a :: t).filter (fun x => ! P x) = a :: t.filter (fun x => ! P x) := by
        simp [hPa']
      have hafP : a ∉ t.filter P := fun h => hat (List.mem_of_mem_filter h)
      rw [h1, h2, foldl_removeFirst_not_mem a _ _ hafP, ih hnt]

lemma trailAppend_length_le (cap : ℕ) (p : ℚ × ℚ) (t : List (ℚ × ℚ)) :
    (trailAppend cap p t).length ≤ cap := by
  simp [trailAppend, List.length_take]

lemma trailAppend_full (cap : ℕ) (p : ℚ × ℚ) (t : List (ℚ × ℚ))
    (hcap : 1 ≤ cap) (hfull : t.length = cap) :
    trailAppend cap p t = p :: t.dropLast := by
  have h1 : cap = (t.length - 1) + 1 := by omega
  rw [trailAppend]
  rw [h1, List.take_succ_cons, ← List.dropLast_eq_take]

namespace Isaiah

lemma emitBurst_zero (mk : ℕ → Particle) (ps : List Particle) :
    emitBurst 0 mk ps = ps := rfl

lemma emitBurst_succ (c : ℕ) (mk : ℕ → Particle) (ps : List Particle) :
    emitBurst (c + 1) mk ps =
      (if (emitBurst c mk ps).length < MAX_PARTICLES
       then emitBurst c mk ps ++ [mk c] else emitBurst c mk ps) := by
  unfold emitBurst
  rw [List.range_succ, List.foldl_append]
  simp

lemma emitBurst_length (c : ℕ) (mk : ℕ → Particle) (ps : List Particle)
    (h : ps.length ≤ MAX_PARTICLES) :
    (emitBurst c mk ps).length = min (ps.length + c) MAX_PARTICLES := by
  induction c with
  | zero =>
    simp only [emitBurst_zero, MAX_PARTICLES] at *
    omega
  | succ c ih =>
    rw [emitBurst_succ]
    split
    · rename_i hlt
      simp only [List.length_append, List.length_singleton, ih] at *
      simp only [MAX_PARTICLES] at *
      omega
    · rename_i hge
      simp only [ih] at *
      simp only [MAX_PARTICLES] at *
      omega

lemma emitBurst_le (c : ℕ) (mk : ℕ → Particle) (ps : List Particle)
    (h : ps.length ≤ MAX_PARTICLES) :
    (emitBurst c mk ps).length ≤ MAX_PARTICLES := by
  rw [emitBurst_length c mk ps h]
  omega

end Isaiah


namespace Isaiah

lemma bpStep_pool (mk : ℕ → ℕ → Particle) (i r : ℕ) (st : IState) :
    (bpStep mk i r st).pool = st.pool := rfl

lemma bpStep_lasers (mk : ℕ → ℕ → Particle) (i r : ℕ) (st : IState) :
    (bpStep mk i r st).lasers = st.lasers := rfl

lemma bpStep_score (mk : ℕ → ℕ → Particle) (i r : ℕ) (st : IState) :
    (bpStep mk i r st).cannon.score = st.cannon.score := rfl

lemma bpStep_lives (mk : ℕ → ℕ → Particle) (i r : ℕ) (st : IState) :
    (bpStep mk i r st).cannon.lives = st.cannon.lives - 1 := rfl

lemma bpStep_stars (mk : ℕ → ℕ → Particle) (i r : ℕ) (st : IState) :
    (bpStep mk i r st).stars = removeFirst r st.stars := rfl

lemma bpStep_particles (mk : ℕ → ℕ → Particle) (i r : ℕ) (st : IState) :
    (bpStep mk i r st).particles = emitBurst 8 (mk i) st.particles := by
  simp only [bpStep]

lemma bpStep_running (mk : ℕ → ℕ → Particle) (i r : ℕ) (st : IState) :
    (bpStep mk i r st).running =
      (if st.cannon.lives - 1 ≤ 0 then false else st.running) := rfl

lemma bpGo_frame (mk : ℕ → ℕ → Particle) :
    ∀ (l : List ℕ) (i : ℕ) (st : IState),
      (bpGo mk i l st).pool = st.pool ∧
      (bpGo mk i l st).lasers = st.lasers ∧
      (bpGo mk i l st).cannon.score = st.cannon.score := by
  intro l
  induction l with
  | nil => intro i st; exact ⟨rfl, rfl, rfl⟩
  | cons r rest ih =>
    intro i st
    simp only [bpGo]
    split
    · have H := ih (i + 1) (bpStep mk i r st)
      exact ⟨H.1, H.2.1, H.2.2⟩
    · exact ih _ _

lemma bpGo_lives (mk : ℕ → ℕ → Particle) :
    ∀ (l : List ℕ) (i : ℕ) (st : IState),
      (bpGo mk i l st).cannon.lives =
        st.cannon.lives - ((l.filter (offB st.pool)).length : ℤ) := by
  intro l
  induction l with
  | nil => intro i st; simp [bpGo]
  | cons r rest ih =>
    intro i st
    simp only [bpGo]
    by_cases hb : (st.pool.getD r defaultStar).offscreen_bottom = true
    · rw [if_pos hb, ih (i + 1) (bpStep mk i r st), bpStep_lives, bpStep_pool]
      have h' : offB st.pool r = true := by simpa [offB] using hb
      simp only [List.filter_cons, h', if_pos, List.length_cons]
      push_cast
      ring
    · rw [if_neg hb, ih (i + 1) st]
      have h' : offB st.pool r = false := by simpa [offB] using hb
      simp [List.filter_cons, h']

lemma bpGo_stars (mk : ℕ → ℕ → Particle) :
    ∀ (l : List ℕ) (i : ℕ) (st : IState),
      (bpGo mk i l st).stars =
        (l.filter (offB st.pool)).foldl (fun acc r => removeFirst r acc) st.stars := by
  intro l
  induction l with
  | nil => intro i st; rfl
  | cons r rest ih =>
    intro i st
    simp only [bpGo]
    by_cases hb : (st.pool.getD r defaultStar).offscreen_bottom = true
    · rw [if_pos hb, ih (i + 1) (bpStep mk i r st), bpStep_pool, bpStep_stars]
      have h' : offB st.pool r = true := by simpa [offB] using hb
      simp [List.filter_cons, h']
    · rw [if_neg hb, ih (i + 1) st]
      have h' : offB st.pool r = false := by simpa [offB] using hb
      simp [List.filter_cons, h']

lemma bpGo_particles (mk : ℕ → ℕ → Particle) :
    ∀ (l : List ℕ) (i : ℕ) (st : IState),
      st.particles.length ≤ MAX_PARTICLES →
      (bpGo mk i l st).particles.length =
        min (st.particles.length + 8 * (l.filter (offB st.pool)).length)
          MAX_PARTICLES := by
  intro l
  induction l with
  | nil =>
    intro i st h
    simp only [bpGo, List.filter_nil, List.length_nil]
    simp only [MAX_PARTICLES] at *
    omega
  | cons r rest ih =>
    intro i st h
    simp only [bpGo]
    by_cases hb : (st.pool.getD r defaultStar).offscreen_bottom = true
    · have hle : (bpStep mk i r st).particles.length ≤ MAX_PARTICLES := by
        rw [bpStep_particles]
        exact emitBurst_le 8 (mk i) st.particles h
      rw [if_pos hb, ih (i + 1) (bpStep mk i r st) hle, bpStep_particles, bpStep_pool,
          emitBurst_length 8 (mk i) st.particles h]
      have h' : offB st.pool r = true := by simpa [offB] using hb
      simp only [List.filter_cons, h', if_pos, List.length_cons]
      simp only [MAX_PARTICLES] at *
      omega
    · rw [if_neg hb, ih (i + 1) st h]
      have h' : offB st.pool r = false := by simpa [offB] using hb
      simp [List.filter_cons, h']

lemma bpGo_particles_le (mk : ℕ → ℕ → Particle) (l : List ℕ) (i : ℕ) (st : IState)
    (h : st.particles.length ≤ MAX_PARTICLES) :
    (bpGo mk i l st).particles.length ≤ MAX_PARTICLES := by
  rw [bpGo_particles mk l i st h]
  omega

lemma bpGo_dead_stays_dead (mk : ℕ → ℕ → Particle) :
    ∀ (l : List ℕ) (i : ℕ) (st : IState),
      st.cannon.lives ≤ 0 → st.running = false →
      (bpGo mk i l st).running = false ∧ (bpGo mk i l st).cannon.lives ≤ 0 := by
  intro l
  induction l with
  | nil => intro i st h1 h2; exact ⟨h2, h1⟩
  | cons r rest ih =>
    intro i st h1 h2
    simp only [bpGo]
    by_cases hb : (st.pool.getD r defaultStar).offscreen_bottom = true
    · rw [if_pos hb]
      refine ih (i + 1) (bpStep mk i r st) ?_ ?_
      · rw [bpStep_lives]; omega
      · rw [bpStep_running, if_pos (by omega : st.cannon.lives - 1 ≤ 0)]
    · rw [if_neg hb]
      exact ih (i + 1) st h1 h2

lemma bpGo_running_eq (mk : ℕ → ℕ → Particle) :
    ∀ (l : List ℕ) (i : ℕ) (st : IState),
      1 ≤ st.cannon.lives →
      (bpGo mk i l st).running =
        (st.running && ! decide ((bpGo mk i l st).cannon.lives ≤ 0)) := by
  intro l
  induction l with
  | nil =>
    intro i st h
    simp only [bpGo]
    have hpos : ¬ (st.cannon.lives ≤ 0) := by omega
    simp [hpos]
  | cons r rest ih =>
    intro i st h
    simp only [bpGo]
    split
    · by_cases hone : st.cannon.lives ≤ 1
      · have h0 : (bpStep mk i r st).cannon.lives ≤ 0 := by rw [bpStep_lives]; omega
        have hrun : (bpStep mk i r st).running = false := by
          rw [bpStep_running, if_pos (by omega : st.cannon.lives - 1 ≤ 0)]
        have hd := bpGo_dead_stays_dead mk rest (i + 1) (bpStep mk i r st) h0 hrun
        rw [hd.1]
        simp [hd.2]
      · have h1 : 1 ≤ (bpStep mk i r st).cannon.lives := by rw [bpStep_lives]; omega
        rw [ih (i + 1) (bpStep mk i r st) h1, bpStep_running,
            if_neg (by omega : ¬ (st.cannon.lives - 1 ≤ 0))]
    · exact ih (i + 1) st h

end Isaiah

namespace Isaiah

lemma colStep_pool (mk : ℕ → ℕ → Particle) (i : ℕ) (l : Laser) (r : ℕ) (st : IState) :
    (colStep mk i l r st).pool = st.pool := rfl

lemma colStep_lives (mk : ℕ → ℕ → Particle) (i : ℕ) (l : Laser) (r : ℕ) (st : IState) :
    (colStep mk i l r st).cannon.lives = st.cannon.lives := rfl

lemma colStep_running (mk : ℕ → ℕ → Particle) (i : ℕ) (l : Laser) (r : ℕ) (st : IState) :
    (colStep mk i l r st).running = st.running := rfl

lemma colStep_lasers (mk : ℕ → ℕ → Particle) (i : ℕ) (l : Laser) (r : ℕ) (st : IState) :
    (colStep mk i l r st).lasers = removeFirst l st.lasers := rfl

lemma colStep_particles (mk : ℕ → ℕ → Particle) (i : ℕ) (l : Laser) (r : ℕ) (st : IState) :
    (colStep mk i l r st).particles = emitBurst 18 (mk i) st.particles := by
  simp only [colStep]

lemma colGo_frame (mk : ℕ → ℕ → Particle) (sc : List ℕ) :
    ∀ (l : List Laser) (i : ℕ) (st : IState),
      (colGo mk sc i l st).pool = st.pool ∧
      (colGo mk sc i l st).cannon.lives = st.cannon.lives ∧
      (colGo mk sc i l st).running = st.running ∧
      (colGo mk sc i l st).last_laser_time = st.last_laser_time ∧
      (colGo mk sc i l st).last_star_spawn = st.last_star_spawn := by
  intro l
  induction l with
  | nil => intro i st; exact ⟨rfl, rfl, rfl, rfl, rfl⟩
  | cons lz rest ih =>
    intro i st
    simp only [colGo]
    cases hf : sc.find? (fun r => lsCollide lz (st.pool.getD r defaultStar)) with
    | none => exact ih _ _
    | some r =>
      have H := ih (i + 1) (colStep mk i lz r st)
      exact ⟨H.1, H.2.1, H.2.2.1, H.2.2.2.1, H.2.2.2.2⟩

lemma colGo_lasers_le (mk : ℕ → ℕ → Particle) (sc : List ℕ) :
    ∀ (l : List Laser) (i : ℕ) (st : IState),
      (colGo mk sc i l st).lasers.length ≤ st.lasers.length := by
  intro l
  induction l with
  | nil => intro i st; exact le_refl _
  | cons lz rest ih =>
    intro i st
    simp only [colGo]
    cases hf : sc.find? (fun r => lsCollide lz (st.pool.getD r defaultStar)) with
    | none => exact ih _ _
    | some r =>
      refine le_trans (ih (i + 1) (colStep mk i lz r st)) ?_
      rw [colStep_lasers]
      exact removeFirst_length_le lz st.lasers

lemma colGo_particles_le (mk : ℕ → ℕ → Particle) (sc : List ℕ) :
    ∀ (l : List Laser) (i : ℕ) (st : IState),
      st.particles.length ≤ MAX_PARTICLES →
      (colGo mk sc i l st).particles.length ≤ MAX_PARTICLES := by
  intro l
  induction l with
  | nil => intro i st h; exact h
  | cons lz rest ih =>
    intro i st h
    simp only [colGo]
    cases hf : sc.find? (fun r => lsCollide lz (st.pool.getD r defaultStar)) with
    | none => exact ih _ _ h
    | some r =>
      refine ih (i + 1) (colStep mk i lz r st) ?_
      rw [colStep_particles]
      exact emitBurst_le 18 (mk i) st.particles h

lemma laserFire_cannon (now : ℤ) (st : IState) :
    (laserFire now st).cannon = st.cannon := by
  unfold laserFire
  split <;> rfl

lemma laserFire_stars (now : ℤ) (st : IState) :
    (laserFire now st).stars = st.stars := by
  unfold laserFire
  split <;> rfl

lemma laserFire_pool (now : ℤ) (st : IState) :
    (laserFire now st).pool = st.pool := by
  unfold laserFire
  split <;> rfl

lemma laserFire_particles (now : ℤ) (st : IState) :
    (laserFire now st).particles = st.particles := by
  unfold laserFire
  split <;> rfl

lemma laserFire_running (now : ℤ) (st : IState) :
    (laserFire now st).running = st.running := by
  unfold laserFire
  split <;> rfl

lemma laserFire_lasers_le (now : ℤ) (st : IState)
    (h : st.lasers.length ≤ MAX_LASERS) :
    (laserFire now st).lasers.length ≤ MAX_LASERS := by
  unfold laserFire
  split
  · rename_i hc
    simp only [List.length_append, List.length_singleton, MAX_LASERS] at *
    omega
  · exact h

lemma starSpawn_cannon (now : ℤ) (sd : ResetSeed) (st : IState) :
    (starSpawn now sd st).cannon = st.cannon := by
  unfold starSpawn
  split
  · split <;> rfl
  · rfl

lemma starSpawn_lasers (now : ℤ) (sd : ResetSeed) (st : IState) :
    (starSpawn now sd st).lasers = st.lasers := by
  unfold starSpawn
  split
  · split <;> rfl
  · rfl

lemma starSpawn_particles (now : ℤ) (sd : ResetSeed) (st : IState) :
    (starSpawn now sd st).particles = st.particles := by
  unfold starSpawn
  split
  · split <;> rfl
  · rfl

lemma starSpawn_running (now : ℤ) (sd : ResetSeed) (st : IState) :
    (starSpawn now sd st).running = st.running := by
  unfold starSpawn
  split
  · split <;> rfl
  · rfl

lemma lasersPhase_cannon (st : IState) : (lasersPhase st).cannon = st.cannon := rfl

lemma lasersPhase_running (st : IState) : (lasersPhase st).running = st.running := rfl

lemma lasersPhase_lasers_le (st : IState) :
    (lasersPhase st).lasers.length ≤ st.lasers.length := by
  simp only [lasersPhase]
  refine le_trans (List.length_filter_le _ _) ?_
  simp

lemma starsPhase_cannon (st : IState) : (starsPhase st).cannon = st.cannon := rfl

lemma starsPhase_lasers (st : IState) : (starsPhase st).lasers = st.lasers := rfl

lemma starsPhase_particles (st : IState) :
    (starsPhase st).particles = st.particles := rfl

lemma starsPhase_running (st : IState) : (starsPhase st).running = st.running := rfl

lemma particlesPhase_cannon (st : IState) :
    (particlesPhase st).cannon = st.cannon := rfl

lemma particlesPhase_lasers (st : IState) :
    (particlesPhase st).lasers = st.lasers := rfl

lemma particlesPhase_running (st : IState) :
    (particlesPhase st).running = st.running := rfl

lemma particlesPhase_le (st : IState) :
    (particlesPhase st).particles.length ≤ MAX_PARTICLES := by
  simp only [particlesPhase, List.length_take, MAX_PARTICLES]
  omega

end Isaiah

namespace Isaiah

lemma preBottom_lives (inp : FrameIn) (st : IState) :
    (preBottom inp st).cannon.lives = st.cannon.lives := by
  simp only [preBottom, collisionPass]
  rw [(colGo_frame _ _ _ _ _).2.1, particlesPhase_cannon, starsPhase_cannon,
      lasersPhase_cannon, starSpawn_cannon, laserFire_cannon]
  rfl

lemma preBottom_running (inp : FrameIn) (st : IState) :
    (preBottom inp st).running = (st.running && ! inp.quitEv) := by
  simp only [preBottom, collisionPass]
  rw [(colGo_frame _ _ _ _ _).2.2.1, particlesPhase_running, starsPhase_running,
      lasersPhase_running, starSpawn_running, laserFire_running]

lemma preBottom_particles_le (inp : FrameIn) (st : IState) :
    (preBottom inp st).particles.length ≤ MAX_PARTICLES := by
  simp only [preBottom, collisionPass]
  refine colGo_particles_le _ _ _ _ _ ?_
  exact particlesPhase_le _

lemma preBottom_lasers_le (inp : FrameIn) (st : IState)
    (h : st.lasers.length ≤ MAX_LASERS) :
    (preBottom inp st).lasers.length ≤ MAX_LASERS := by
  simp only [preBottom, collisionPass]
  refine le_trans (colGo_lasers_le _ _ _ _ _) ?_
  rw [particlesPhase_lasers, starsPhase_lasers]
  refine le_trans (lasersPhase_lasers_le _) ?_
  rw [starSpawn_lasers]
  exact laserFire_lasers_le _ _ h

end Isaiah

namespace Isaiah

lemma star_update_x (s : Star) :
    (Star.update s).x =
      (if s.x + s.vx < 20 then 20
       else if SCREEN_W - 20 < s.x + s.vx then SCREEN_W - 20 else s.x + s.vx) := by
  simp only [Star.update]
  split_ifs <;> rfl

lemma star_update_vx (s : Star) :
    (Star.update s).vx =
      (if s.x + s.vx < 20 then -s.vx
       else if SCREEN_W - 20 < s.x + s.vx then -s.vx else s.vx) := by
  simp only [Star.update]
  split_ifs <;> rfl

lemma star_update_trail (s : Star) :
    (Star.update s).trail =
      trailAppend STAR_TRAIL_LEN (s.x, s.y - s.outer_r * 0.6) s.trail := by
  simp only [Star.update]
  split_ifs <;> rfl

end Isaiah

namespace Kuba

lemma kstar_update_x (s : Star) :
    (Star.update s).x =
      (if s.x + s.vx < 10 then 10
       else if SCREEN_W - 10 < s.x + s.vx then SCREEN_W - 10 else s.x + s.vx) := by
  simp only [Star.update]
  split_ifs <;> rfl

lemma kstar_update_vx (s : Star) :
    (Star.update s).vx =
      (if s.x + s.vx < 10 then -s.vx
       else if SCREEN_W - 10 < s.x + s.vx then -s.vx else s.vx) := by
  simp only [Star.update]
  split_ifs <;> rfl

lemma kstar_update_trail (s : Star) :
    (Star.update s).trail = trailAppend STAR_TRAIL_LENGTH (s.x, s.y) s.trail := by
  simp only [Star.update]
  split_ifs <;> rfl

end Kuba

lemma getD_map_range {α : Type} (n i : ℕ) (f : ℕ → α) (d : α) (h : i < n) :
    ((List.range n).map f).getD i d = f i := by
  rw [List.getD_eq_getElem?_getD, List.getElem?_map, List.getElem?_range h]
  rfl

lemma sqrt_cos_sin_radius (a r : ℝ) (h : 0 ≤ r) :
    Real.sqrt ((Real.cos a * r) ^ 2 + (Real.sin a * r) ^ 2) = r := by
  have h1 : (Real.cos a * r) ^ 2 + (Real.sin a * r) ^ 2 =
      (Real.cos a ^ 2 + Real.sin a ^ 2) * r ^ 2 := by ring
  rw [h1, Real.cos_sq_add_sin_sq, one_mul, Real.sqrt_sq h]

lemma star_points_getD_fst {K : Type} [Field K] (cosf sinf : K → K)
    (pi cx cy r q rot : K) (d : K × K) (i : ℕ) (h : i < 10) :
    ((star_points cosf sinf pi cx cy r q rot).getD i d).1 =
      cx + cosf (rot + (i : K) * (pi / 5)) * (if i % 2 = 0 then r else r * q) := by
  rw [star_points, getD_map_range (5 * 2) i _ d (by omega)]

lemma star_points_getD_snd {K : Type} [Field K] (cosf sinf : K → K)
    (pi cx cy r q rot : K) (d : K × K) (i : ℕ) (h : i < 10) :
    ((star_points cosf sinf pi cx cy r q rot).getD i d).2 =
      cy + sinf (rot + (i : K) * (pi / 5)) * (if i % 2 = 0 then r else r * q) := by
  rw [star_points, getD_map_range (5 * 2) i _ d (by omega)]

namespace Isaiah

lemma starSpawn_stars (now : ℤ) (sd : ResetSeed) (st : IState) :
    (starSpawn now sd st).stars =
      (if STAR_SPAWN_INTERVAL_MS ≤ now - st.last_star_spawn ∧
          st.stars.length < MAX_STARS
       then st.stars ++ [st.stars.length] else st.stars) := by
  unfold starSpawn
  split_ifs with h1 h2 h3 <;> first | rfl | tauto

lemma starSpawn_timer (now : ℤ) (sd : ResetSeed) (st : IState) :
    (starSpawn now sd st).last_star_spawn =
      (if STAR_SPAWN_INTERVAL_MS ≤ now - st.last_star_spawn
       then now else st.last_star_spawn) := by
  unfold starSpawn
  split_ifs with h1 h2 <;> rfl

end Isaiah

/-- C1: the claim says each live Target is destroyed by at most one
Projectile per frame and the score increases by exactly 10 per destroyed
Target.  Evaluating the collision resolver of Isaiah.main at a frame
holding one star at (100, 100) with outer radius 30 and two live lasers at
(100, 90) and (100, 110), both of whose rects intersect the star rect,
shows the code processes two hits against the single star: the stale
stars_copy snapshot still lists the star after the first laser removed it,
so the second laser is also consumed, the score rises by 20, and two
18-particle bursts are emitted — one destroyed target, twenty points. -/
theorem C1_isaiah_double_hit_eval :
    let star100 : Isaiah.Star :=
      { x := 100, y := 100, vx := 0, vy := 2, outer_r := 30,
        rotation := 0, rotation_speed := 0, trail := [] }
    let mk : ℕ → ℕ → Isaiah.Particle :=
      fun _ _ => ⟨100, 100, 0, 0, 0, 30, 3, (255, 205, 60)⟩
    let st : Isaiah.IState :=
      { cannon := { x := 450, lives := 3, score := 0 },
        lasers := [⟨100, 90, 4⟩, ⟨100, 110, 4⟩],
        pool := [star100], stars := [0], particles := [],
        last_laser_time := 0, last_star_spawn := 0, running := true }
    let res := Isaiah.collisionPass mk st
    res.cannon.score = 20 ∧ res.stars = [] ∧ res.lasers = [] ∧
      res.particles.length = 36 := by
  have hb1 : ∀ mk2 : ℕ → Isaiah.Particle,
      (Isaiah.emitBurst 18 mk2 ([] : List Isaiah.Particle)).length = 18 := by
    intro mk2
    rw [Isaiah.emitBurst_length 18 mk2 [] (by simp [Isaiah.MAX_PARTICLES])]
    simp [Isaiah.MAX_PARTICLES]
  have hb2 : ∀ (mk2 mk3 : ℕ → Isaiah.Particle),
      (Isaiah.emitBurst 18 mk3
        (Isaiah.emitBurst 18 mk2 ([] : List Isaiah.Particle))).length = 36 := by
    intro mk2 mk3
    rw [Isaiah.emitBurst_length 18 mk3 _ (by rw [hb1]; simp [Isaiah.MAX_PARTICLES]),
        hb1]
    simp [Isaiah.MAX_PARTICLES]
  norm_num [Isaiah.collisionPass, Isaiah.colGo, Isaiah.colStep, Isaiah.lsCollide,
    Isaiah.Laser.rect, Isaiah.Star.rect, Rect.colliderect, ratTrunc, removeFirst,
    List.find?, List.getD, Isaiah.defaultStar, Isaiah.Laser.mk.injEq, hb2]

/-- C2 counterexample: the claim says every emission of a particle burst
silently drops particles that would exceed the global particle cap; the
hit handler of Kuba.main appends all 14 burst particles unconditionally,
so from 120 live particles (the cap value of the capped variant) one hit
leaves 134 live particles. -/
theorem C2_kuba_uncapped_counterexample :
    let p : Kuba.Particle := ⟨400, 300, 0, 0, 30, (255, 200, 50), 0, 3⟩
    let ps : List Kuba.Particle := List.replicate 120 p
    (Kuba.hitBurst (fun _ => p) ps).length = 134 ∧
      Isaiah.MAX_PARTICLES < (Kuba.hitBurst (fun _ => p) ps).length := by
  norm_num [Kuba.hitBurst, Isaiah.MAX_PARTICLES]

/-- C2 as amended: in the capped variant (Isaiah.py) the property holds —
after any frame the live-particle count is at most MAX_PARTICLES = 120,
the initial state satisfies the bound, and one guarded burst of count
fresh particles over a list within the cap yields exactly
min (length + count) 120 live particles, so particles beyond the cap are
silently dropped; the bullet variant (Kuba.py) has no particle cap. -/
theorem C2_isaiah_particle_cap :
    ∀ (inp : Isaiah.FrameIn) (st : Isaiah.IState) (seeds : ℕ → Isaiah.ResetSeed)
      (c : ℕ) (mk : ℕ → Isaiah.Particle) (ps : List Isaiah.Particle),
      (Isaiah.frame inp st).particles.length ≤ Isaiah.MAX_PARTICLES ∧
      (Isaiah.initState seeds).particles.length ≤ Isaiah.MAX_PARTICLES ∧
      (ps.length ≤ Isaiah.MAX_PARTICLES →
        (Isaiah.emitBurst c mk ps).length = min (ps.length + c) Isaiah.MAX_PARTICLES) := by
  intro inp st seeds c mk ps
  refine ⟨?_, ?_, ?_⟩
  · simp only [Isaiah.frame, Isaiah.bottomPass]
    exact Isaiah.bpGo_particles_le _ _ _ _ (Isaiah.preBottom_particles_le inp st)
  · simp [Isaiah.initState]
  · exact fun h => Isaiah.emitBurst_length c mk ps h

/-- C2 witness: the emission contract instantiated at a burst of 18 fresh
particles over the empty collection. -/
theorem C2_isaiah_particle_cap_witness :
    ([] : List Isaiah.Particle).length ≤ Isaiah.MAX_PARTICLES ∧
    (Isaiah.emitBurst 18 (fun _ => (⟨0, 0, 0, 0, 0, 30, 3, (255, 205, 60)⟩ : Isaiah.Particle))
      ([] : List Isaiah.Particle)).length = 18 := by
  refine ⟨by norm_num [Isaiah.MAX_PARTICLES], ?_⟩
  have h := (C2_isaiah_particle_cap
    ⟨false, false, false, 0, ⟨0, 0, 0, 0, 0, 0, 0⟩, fun _ _ => ⟨0, 0, 0, 0, 0, 30, 3, (255, 205, 60)⟩,
      fun _ _ => ⟨0, 0, 0, 0, 0, 30, 3, (255, 205, 60)⟩⟩
    (Isaiah.initState (fun _ => ⟨0, 0, 0, 0, 0, 0, 0⟩)) (fun _ => ⟨0, 0, 0, 0, 0, 0, 0⟩)
    18 (fun _ => ⟨0, 0, 0, 0, 0, 30, 3, (255, 205, 60)⟩) []).2.2
    (by norm_num [Isaiah.MAX_PARTICLES])
  simpa [Isaiah.MAX_PARTICLES] using h

/-- C3 counterexample: the claim says a projectile is spawned iff the
cooldown has elapsed and the live-projectile count is below the cap C_p
(12 in the capped variant); the auto-fire of Kuba.main checks only the
cooldown, so with 12 live lasers and an elapsed cooldown it still spawns,
reaching 13 live projectiles. -/
theorem C3_kuba_spawn_past_cap_counterexample :
    let twelve : List Kuba.Laser := List.replicate 12 ⟨400, 518, 4⟩
    (Kuba.autoFire 200 0 twelve 400 550).1.length = 13 ∧
      ¬ (twelve.length < Isaiah.MAX_LASERS) := by
  norm_num [Kuba.autoFire, Kuba.LASER_COOLDOWN_MS, Isaiah.MAX_LASERS]

/-- C3 as amended: in the capped variant (Isaiah.py) the property holds —
the auto-fire gate appends a projectile iff the cooldown has elapsed and
the live count is below MAX_LASERS = 12, it leaves the state unchanged
otherwise, a frame maps a state within the cap to a state within the cap,
and the initial state is within the cap, so the live-projectile count
never exceeds 12; the bullet variant (Kuba.py) has no cap conjunct. -/
theorem C3_isaiah_spawn_iff_cap :
    ∀ (now : ℤ) (st : Isaiah.IState) (inp : Isaiah.FrameIn) (st2 : Isaiah.IState)
      (seeds : ℕ → Isaiah.ResetSeed),
      ((Isaiah.laserFire now st).lasers.length = st.lasers.length + 1 ↔
        (Isaiah.LASER_COOLDOWN_MS ≤ now - st.last_laser_time ∧
          st.lasers.length < Isaiah.MAX_LASERS)) ∧
      (¬ (Isaiah.LASER_COOLDOWN_MS ≤ now - st.last_laser_time ∧
          st.lasers.length < Isaiah.MAX_LASERS) →
        Isaiah.laserFire now st = st) ∧
      (st2.lasers.length ≤ Isaiah.MAX_LASERS →
        (Isaiah.frame inp st2).lasers.length ≤ Isaiah.MAX_LASERS) ∧
      (Isaiah.initState seeds).lasers.length ≤ Isaiah.MAX_LASERS := by
  intro now st inp st2 seeds
  refine ⟨?_, ?_, ?_, ?_⟩
  · unfold Isaiah.laserFire
    split_ifs with hc
    · simpa using hc
    · constructor
      · intro h
        exact absurd h (by omega)
      · intro h
        exact absurd h hc
  · intro h
    unfold Isaiah.laserFire
    rw [if_neg h]
  · intro h
    simp only [Isaiah.frame, Isaiah.bottomPass]
    rw [(Isaiah.bpGo_frame _ _ _ _).2.1]
    exact Isaiah.preBottom_lasers_le _ _ h
  · simp [Isaiah.initState]

/-- C3 witness: the spawn-iff characterization instantiated at an empty
laser list with an elapsed cooldown, where a spawn does occur. -/
theorem C3_isaiah_spawn_iff_cap_witness :
    let st : Isaiah.IState :=
      { cannon := { x := 450, lives := 3, score := 0 },
        lasers := [], pool := [], stars := [], particles := [],
        last_laser_time := 0, last_star_spawn := 0, running := true }
    (Isaiah.laserFire 200 st).lasers.length = st.lasers.length + 1 := by
  intro st
  exact (C3_isaiah_spawn_iff_cap 200 st
    ⟨false, false, false, 0, ⟨0, 0, 0, 0, 0, 0, 0⟩,
      fun _ _ => ⟨0, 0, 0, 0, 0, 30, 3, (0, 0, 0)⟩,
      fun _ _ => ⟨0, 0, 0, 0, 0, 30, 3, (0, 0, 0)⟩⟩ st
    (fun _ => ⟨0, 0, 0, 0, 0, 0, 0⟩)).1.mpr
    (by constructor
        · norm_num [Isaiah.LASER_COOLDOWN_MS]
        · norm_num [Isaiah.MAX_LASERS])

/-- C4 counterexample: the claim says the cooldown clock of each spawn
kind measures elapsed time since the previous successful spawn, and that a
spawn occurs on the very next frame check once that elapsed time reaches
the cooldown, subject to the cap.  In Isaiah.main the star-spawn timer is
reset whenever the interval has elapsed even when the cap blocks the
spawn: starting from a state whose last successful star spawn was at
t = 5400 with all 6 pool slots active, the check at t = 6300 spawns
nothing but resets the timer; after one star is removed, the check at
t = 6500 still spawns nothing although 6500 - 5400 = 1100 exceeds the
900 ms interval and the count 5 is below the cap 6. -/
theorem C4_star_timer_reset_counterexample :
    let sd : Isaiah.ResetSeed := ⟨0, 0, 0, 0, 0, 0, 0⟩
    let st6 : Isaiah.IState :=
      { cannon := { x := 450, lives := 3, score := 0 },
        lasers := [], pool := List.replicate 6 Isaiah.defaultStar,
        stars := [0, 1, 2, 3, 4, 5],
        particles := [], last_laser_time := 0, last_star_spawn := 5400,
        running := true }
    let s7 := Isaiah.starSpawn 6300 sd st6
    let s8 : Isaiah.IState := { s7 with stars := removeFirst 0 s7.stars }
    s7.stars.length = 6 ∧ s7.last_star_spawn = 6300 ∧
      s8.stars.length = 5 ∧ s8.stars.length < Isaiah.MAX_STARS ∧
      Isaiah.STAR_SPAWN_INTERVAL_MS ≤ (6500 : ℤ) - 5400 ∧
      (Isaiah.starSpawn 6500 sd s8).stars.length = 5 := by
  simp only [Isaiah.starSpawn_stars, Isaiah.starSpawn_timer]
  norm_num [removeFirst, Isaiah.STAR_SPAWN_INTERVAL_MS, Isaiah.MAX_STARS]

/-- C4 as amended: for projectiles the timer is reset exactly on a
successful spawn, so two successful projectile spawns are never closer
than the 180 ms cooldown and a spawn occurs as soon as the elapsed time
reaches the cooldown with the count below the cap; for targets a spawn
occurs iff the 900 ms interval has elapsed on the gate timer and the
count is below the cap, and two successful target spawns whose gate timer
carries the first spawn time are likewise at least the interval apart —
but the star gate timer is also reset when the cap blocks the spawn, so a
target spawn need not occur on the first check at which the time since
the previous successful spawn has reached the interval. -/
theorem C4_cooldown_spec :
    ∀ (now1 now2 : ℤ) (st1 st2 : Isaiah.IState) (sd : Isaiah.ResetSeed),
      ((Isaiah.laserFire now1 st1).lasers.length = st1.lasers.length + 1 →
        (Isaiah.laserFire now1 st1).last_laser_time = now1) ∧
      (st2.last_laser_time = now1 →
        (Isaiah.laserFire now2 st2).lasers.length = st2.lasers.length + 1 →
        Isaiah.LASER_COOLDOWN_MS ≤ now2 - now1) ∧
      (Isaiah.LASER_COOLDOWN_MS ≤ now1 - st1.last_laser_time →
        st1.lasers.length < Isaiah.MAX_LASERS →
        (Isaiah.laserFire now1 st1).lasers.length = st1.lasers.length + 1) ∧
      ((Isaiah.starSpawn now1 sd st1).stars.length = st1.stars.length + 1 ↔
        (Isaiah.STAR_SPAWN_INTERVAL_MS ≤ now1 - st1.last_star_spawn ∧
          st1.stars.length < Isaiah.MAX_STARS)) ∧
      (st2.last_star_spawn = now1 →
        (Isaiah.starSpawn now2 sd st2).stars.length = st2.stars.length + 1 →
        Isaiah.STAR_SPAWN_INTERVAL_MS ≤ now2 - now1) := by
  intro now1 now2 st1 st2 sd
  refine ⟨?_, ?_, ?_, ?_, ?_⟩
  · unfold Isaiah.laserFire
    split_ifs with hc
    · intro _
      rfl
    · intro h
      exact absurd h (by omega)
  · intro ht h
    unfold Isaiah.laserFire at h
    revert h
    split_ifs with hc
    · intro _
      rw [ht] at hc
      exact hc.1
    · intro h
      exact absurd h (by omega)
  · intro h1 h2
    unfold Isaiah.laserFire
    rw [if_pos ⟨h1, h2⟩]
    simp
  · rw [Isaiah.starSpawn_stars]
    split_ifs with hc
    · simpa using hc
    · constructor
      · intro h
        exact absurd h (by omega)
      · intro h
        exact absurd h hc
  · intro ht h
    rw [Isaiah.starSpawn_stars] at h
    revert h
    split_ifs with hc
    · intro _
      rw [ht] at hc
      exact hc.1
    · intro h
      exact absurd h (by omega)

/-- C4 witness: the projectile immediacy conjunct instantiated at an
elapsed cooldown with an empty laser list. -/
theorem C4_cooldown_spec_witness :
    let st : Isaiah.IState :=
      { cannon := { x := 450, lives := 3, score := 0 },
        lasers := [], pool := [], stars := [], particles := [],
        last_laser_time := 20, last_star_spawn := 0, running := true }
    (Isaiah.laserFire 200 st).lasers.length = st.lasers.length + 1 := by
  intro st
  exact (C4_cooldown_spec 200 0 st st ⟨0, 0, 0, 0, 0, 0, 0⟩).2.2.1
    (by norm_num [Isaiah.LASER_COOLDOWN_MS])
    (by norm_num [Isaiah.MAX_LASERS])

/-- C5 counterexample: the claim says Cannon.lives is at least 0 at every
observation point; in Isaiah.main, when two stars cross the bottom
boundary in the frame where lives is 1, the bottom pass decrements twice
and the frame renders lives = -1 in the HUD before the loop exits. -/
theorem C5_negative_lives_counterexample :
    let offStar : Isaiah.Star :=
      { x := 100, y := 700, vx := 0, vy := 2, outer_r := 30,
        rotation := 0, rotation_speed := 0, trail := [] }
    let mk : ℕ → ℕ → Isaiah.Particle :=
      fun _ _ => ⟨0, 0, 0, 0, 0, 20, 3, (255, 110, 60)⟩
    let st : Isaiah.IState :=
      { cannon := { x := 450, lives := 1, score := 0 },
        lasers := [], pool := [offStar, offStar], stars := [0, 1],
        particles := [], last_laser_time := 0, last_star_spawn := 0,
        running := true }
    (Isaiah.bottomPass mk st).cannon.lives = -1 ∧
      (Isaiah.bottomPass mk st).running = false ∧
      ¬ (0 ≤ (Isaiah.bottomPass mk st).cannon.lives) := by
  norm_num [Isaiah.bottomPass, Isaiah.bpGo, Isaiah.bpStep,
    Isaiah.Star.offscreen_bottom, Isaiah.SCREEN_H, List.getD, removeFirst,
    Isaiah.defaultStar]

/-- C5 as amended: from any frame entered with lives at least 1, lives
never increases across the frame; if the frame ends with lives at most 0
the loop flag is false, so the loop terminates at the end of the frame in
which lives first drops to 0 or below and not later; and if the frame
ends with lives still at least 1 the loop flag is exactly the flag it
entered with (cleared only by a quit event), so the loop never stops
earlier.  Lives itself can end negative when several misses occur in the
terminating frame, which that frame's HUD observes. -/
theorem C5_lives_termination :
    ∀ (inp : Isaiah.FrameIn) (st : Isaiah.IState), 1 ≤ st.cannon.lives →
      ((Isaiah.frame inp st).cannon.lives ≤ 0 →
        (Isaiah.frame inp st).running = false) ∧
      (1 ≤ (Isaiah.frame inp st).cannon.lives →
        (Isaiah.frame inp st).running = (st.running && ! inp.quitEv)) ∧
      (Isaiah.frame inp st).cannon.lives ≤ st.cannon.lives := by
  intro inp st h
  have hpb : 1 ≤ (Isaiah.preBottom inp st).cannon.lives := by
    rw [Isaiah.preBottom_lives]
    exact h
  have hrun := Isaiah.bpGo_running_eq inp.missMk (Isaiah.preBottom inp st).stars 0
    (Isaiah.preBottom inp st) hpb
  have hlives := Isaiah.bpGo_lives inp.missMk (Isaiah.preBottom inp st).stars 0
    (Isaiah.preBottom inp st)
  refine ⟨?_, ?_, ?_⟩
  · intro hz
    simp only [Isaiah.frame, Isaiah.bottomPass] at hz ⊢
    rw [hrun]
    simp [hz]
  · intro h1
    simp only [Isaiah.frame, Isaiah.bottomPass] at h1 ⊢
    rw [hrun, Isaiah.preBottom_running]
    have hz : ¬ ((Isaiah.bpGo inp.missMk 0 (Isaiah.preBottom inp st).stars
        (Isaiah.preBottom inp st)).cannon.lives ≤ 0) := by omega
    simp [hz]
  · simp only [Isaiah.frame, Isaiah.bottomPass]
    rw [hlives, Isaiah.preBottom_lives]
    omega

/-- C5 witness: the monotone-lives conjunct at a concrete three-lives
state. -/
theorem C5_lives_termination_witness :
    let st : Isaiah.IState :=
      { cannon := { x := 450, lives := 3, score := 0 },
        lasers := [], pool := [], stars := [], particles := [],
        last_laser_time := 0, last_star_spawn := 0, running := true }
    let inp : Isaiah.FrameIn :=
      ⟨false, false, false, 0, ⟨0, 0, 0, 0, 0, 0, 0⟩,
        fun _ _ => ⟨0, 0, 0, 0, 0, 30, 3, (0, 0, 0)⟩,
        fun _ _ => ⟨0, 0, 0, 0, 0, 30, 3, (0, 0, 0)⟩⟩
    (1 : ℤ) ≤ 3 ∧ (Isaiah.frame inp st).cannon.lives ≤ 3 := by
  intro st inp
  exact ⟨by norm_num, (C5_lives_termination inp st (by norm_num)).2.2⟩

/-- C6 counterexample: the claim says every Target crossing the bottom
boundary decrements lives by exactly 1 and triggers a feedback burst; the
bottom step of Kuba.main is a bare filter that drops offscreen stars, so
a star at y = 700 is removed while lives stays 3 and no particle is
emitted (that variant loses lives to hostile star bullets instead). -/
theorem C6_kuba_silent_removal_counterexample :
    let bigStar : Kuba.Star :=
      { x := 400, y := 700, vx := 0, vy := 2, radius := 12, angle := 0,
        angle_speed := 0, trail := [], alive := true }
    let st : Kuba.GameState :=
      { lives := 3, score := 0, stars := [bigStar], particles := [] }
    (Kuba.cullStars st).stars = [] ∧ (Kuba.cullStars st).lives = 3 ∧
      (Kuba.cullStars st).particles = [] ∧
      ¬ ((Kuba.cullStars st).lives = st.lives - 1) := by
  norm_num [Kuba.cullStars, Kuba.Star.offscreen, Kuba.SCREEN_H]

/-- C6 as amended: in the capped variant (Isaiah.py) the property holds —
over a duplicate-free active list with the particle count within the cap,
the bottom pass removes exactly the targets whose star is past the bottom
boundary, decrements lives by exactly one per such target, and emits one
burst of up to 8 feedback particles per miss through the cap guard; the
bullet variant (Kuba.py) removes bottom-crossing targets silently. -/
theorem C6_isaiah_miss_accounting :
    ∀ (mk : ℕ → ℕ → Isaiah.Particle) (st : Isaiah.IState),
      st.stars.Nodup → st.particles.length ≤ Isaiah.MAX_PARTICLES →
      (Isaiah.bottomPass mk st).stars =
        st.stars.filter (fun r => ! Isaiah.offB st.pool r) ∧
      (Isaiah.bottomPass mk st).cannon.lives =
        st.cannon.lives - ((st.stars.filter (Isaiah.offB st.pool)).length : ℤ) ∧
      (Isaiah.bottomPass mk st).particles.length =
        min (st.particles.length + 8 * (st.stars.filter (Isaiah.offB st.pool)).length)
          Isaiah.MAX_PARTICLES := by
  intro mk st hnd hp
  refine ⟨?_, ?_, ?_⟩
  · simp only [Isaiah.bottomPass]
    rw [Isaiah.bpGo_stars]
    exact foldl_removeFirst_filter _ _ hnd
  · simp only [Isaiah.bottomPass]
    rw [Isaiah.bpGo_lives]
  · simp only [Isaiah.bottomPass]
    rw [Isaiah.bpGo_particles _ _ _ _ hp]

/-- C6 witness: the lives-accounting conjunct at a concrete state with one
offscreen star reference out of two. -/
theorem C6_isaiah_miss_accounting_witness :
    let offStar : Isaiah.Star :=
      { x := 100, y := 700, vx := 0, vy := 2, outer_r := 30,
        rotation := 0, rotation_speed := 0, trail := [] }
    let onStar : Isaiah.Star :=
      { x := 200, y := 100, vx := 0, vy := 2, outer_r := 30,
        rotation := 0, rotation_speed := 0, trail := [] }
    let mk : ℕ → ℕ → Isaiah.Particle :=
      fun _ _ => ⟨0, 0, 0, 0, 0, 20, 3, (255, 110, 60)⟩
    let st : Isaiah.IState :=
      { cannon := { x := 450, lives := 3, score := 0 },
        lasers := [], pool := [offStar, onStar], stars := [0, 1],
        particles := [], last_laser_time := 0, last_star_spawn := 0,
        running := true }
    st.stars.Nodup ∧ st.particles.length ≤ Isaiah.MAX_PARTICLES ∧
      (Isaiah.bottomPass mk st).cannon.lives =
        st.cannon.lives - ((st.stars.filter (Isaiah.offB st.pool)).length : ℤ) := by
  intro offStar onStar mk st
  refine ⟨by decide, by norm_num [Isaiah.MAX_PARTICLES], ?_⟩
  exact (C6_isaiah_miss_accounting mk st (by decide)
    (by norm_num [Isaiah.MAX_PARTICLES])).2.1

/-- C7: for every Target the trail buffer never exceeds its configured
capacity, and appending a sample to a full trail evicts exactly the
oldest (last) sample, leaving the newer samples unchanged: one deque
appendleft yields at most cap samples for any cap, over a full buffer it
yields the new sample followed by every old sample except the last, and
each Star.update of both variants keeps the trail within its capacity
(6 in Isaiah.py, 12 in Kuba.py). -/
theorem C7_trail_ring_buffer :
    ∀ (cap : ℕ) (p : ℚ × ℚ) (t : List (ℚ × ℚ)) (s : Isaiah.Star) (k : Kuba.Star),
      (trailAppend cap p t).length ≤ cap ∧
      (1 ≤ cap → t.length = cap → trailAppend cap p t = p :: t.dropLast) ∧
      (Isaiah.Star.update s).trail.length ≤ Isaiah.STAR_TRAIL_LEN ∧
      (Kuba.Star.update k).trail.length ≤ Kuba.STAR_TRAIL_LENGTH := by
  intro cap p t s k
  refine ⟨trailAppend_length_le cap p t,
          fun h1 h2 => trailAppend_full cap p t h1 h2, ?_, ?_⟩
  · rw [Isaiah.star_update_trail]
    exact trailAppend_length_le _ _ _
  · rw [Kuba.kstar_update_trail]
    exact trailAppend_length_le _ _ _

/-- C7 witness: appending to a full six-sample trail evicts exactly the
oldest sample. -/
theorem C7_trail_ring_buffer_witness :
    let t : List (ℚ × ℚ) := [(1, 1), (2, 2), (3, 3), (4, 4), (5, 5), (6, 6)]
    let s : Isaiah.Star :=
      { x := 100, y := 100, vx := 0, vy := 2, outer_r := 30,
        rotation := 0, rotation_speed := 0, trail := [] }
    let k : Kuba.Star :=
      { x := 400, y := 100, vx := 0, vy := 2, radius := 12, angle := 0,
        angle_speed := 0, trail := [], alive := true }
    (1 : ℕ) ≤ 6 ∧ t.length = 6 ∧
      trailAppend 6 (0, 0) t = (0, 0) :: t.dropLast := by
  intro t s k
  exact ⟨by norm_num, rfl,
    (C7_trail_ring_buffer 6 (0, 0) t s k).2.1 (by norm_num) rfl⟩

/-- C8: the star-polygon utility star_points, with the trigonometric
functions and pi of the math module instantiated by the exact real
functions, is a pure function of center, outer radius, inner ratio and
rotation; for the 5-point star it returns exactly 10 ordered vertices,
the distance of the i-th vertex from the center is exactly the outer
radius at even i and outer radius times the inner ratio at odd i, adding
two pi to the rotation returns the same vertex list, and the member3.py
draw_star vertex list also has exactly 10 vertices. -/
theorem C8_star_points_spec :
    ∀ (cx cy outer_r q rot : ℝ), 0 ≤ outer_r → 0 ≤ q →
      (star_points Real.cos Real.sin Real.pi cx cy outer_r q rot).length = 10 ∧
      (∀ i : ℕ, i < 10 →
        Real.sqrt
          ((((star_points Real.cos Real.sin Real.pi cx cy outer_r q rot).getD i (0, 0)).1 - cx) ^ 2 +
            (((star_points Real.cos Real.sin Real.pi cx cy outer_r q rot).getD i (0, 0)).2 - cy) ^ 2) =
          (if i % 2 = 0 then outer_r else outer_r * q)) ∧
      star_points Real.cos Real.sin Real.pi cx cy outer_r q (rot + 2 * Real.pi) =
        star_points Real.cos Real.sin Real.pi cx cy outer_r q rot ∧
      (Member3.draw_star_pts Real.cos Real.sin Real.pi cx cy outer_r).length = 10 := by
  intro cx cy r q rot hr hq
  refine ⟨?_, ?_, ?_, ?_⟩
  · simp [star_points]
  · intro i hi
    rw [star_points_getD_fst Real.cos Real.sin Real.pi cx cy r q rot (0, 0) i hi,
        star_points_getD_snd Real.cos Real.sin Real.pi cx cy r q rot (0, 0) i hi]
    have hrr : (0 : ℝ) ≤ (if i % 2 = 0 then r else r * q) := by
      split_ifs
      · exact hr
      · exact mul_nonneg hr hq
    have e1 : cx + Real.cos (rot + (i : ℝ) * (Real.pi / 5)) *
          (if i % 2 = 0 then r else r * q) - cx =
        Real.cos (rot + (i : ℝ) * (Real.pi / 5)) *
          (if i % 2 = 0 then r else r * q) := by ring
    have e2 : cy + Real.sin (rot + (i : ℝ) * (Real.pi / 5)) *
          (if i % 2 = 0 then r else r * q) - cy =
        Real.sin (rot + (i : ℝ) * (Real.pi / 5)) *
          (if i % 2 = 0 then r else r * q) := by ring
    rw [e1, e2]
    exact sqrt_cos_sin_radius _ _ hrr
  · simp only [star_points]
    refine List.map_congr_left ?_
    intro i _
    have e : rot + 2 * Real.pi + (i : ℝ) * (Real.pi / 5) =
        (rot + (i : ℝ) * (Real.pi / 5)) + 2 * Real.pi := by ring
    simp only [e, Real.cos_add_two_pi, Real.sin_add_two_pi]
  · simp [Member3.draw_star_pts]

/-- C8 witness: the vertex count and the two-pi periodicity at center
(0, 0), outer radius 5, inner ratio one half, rotation 0. -/
theorem C8_star_points_spec_witness :
    (0 : ℝ) ≤ 5 ∧ (0 : ℝ) ≤ 1 / 2 ∧
    (star_points Real.cos Real.sin Real.pi 0 0 5 (1 / 2) 0).length = 10 ∧
    star_points Real.cos Real.sin Real.pi 0 0 5 (1 / 2) (0 + 2 * Real.pi) =
      star_points Real.cos Real.sin Real.pi 0 0 5 (1 / 2) 0 := by
  refine ⟨by norm_num, by norm_num, ?_, ?_⟩
  · exact (C8_star_points_spec 0 0 5 (1 / 2) 0 (by norm_num) (by norm_num)).1
  · exact (C8_star_points_spec 0 0 5 (1 / 2) 0 (by norm_num) (by norm_num)).2.2.1

/-- C9 counterexample: the claim says a spawn never resets and re-appends
a pool slot that is still in the active list.  Starting the pooled
variant from an empty active list, two spawns append pool slots 0 and 1;
a collision removal of slot 0 (the effect of stars.remove on the first
active star) leaves the active list [1]; the next spawn takes
star_pool[len(stars)] = star_pool[1], which is still active, and appends
it again, so the active list becomes [1, 1] and is no longer
duplicate-free. -/
theorem C9_pool_duplicate_counterexample :
    let sd : Isaiah.ResetSeed := ⟨0, 0, 0, 0, 0, 0, 0⟩
    let st0 : Isaiah.IState :=
      { cannon := { x := 450, lives := 3, score := 0 },
        lasers := [], pool := List.replicate 6 Isaiah.defaultStar, stars := [],
        particles := [], last_laser_time := 0, last_star_spawn := 0,
        running := true }
    let t2 := Isaiah.starSpawn 1800 sd (Isaiah.starSpawn 900 sd st0)
    let t3 : Isaiah.IState := { t2 with stars := removeFirst 0 t2.stars }
    let t4 := Isaiah.starSpawn 2700 sd t3
    t2.stars = [0, 1] ∧ t3.stars = [1] ∧ t3.stars.length ∈ t3.stars ∧
      t4.stars = [1, 1] ∧ ¬ t4.stars.Nodup := by
  simp only [Isaiah.starSpawn_stars, Isaiah.starSpawn_timer]
  norm_num [removeFirst, Isaiah.STAR_SPAWN_INTERVAL_MS, Isaiah.MAX_STARS]

/-- C9 as amended: as long as the active list is exactly the pool prefix
0..k-1 — which holds in every removal-free run, and more generally until
a removal out of stack order occurs — the slot star_pool[len(stars)]
chosen by the next spawn is not yet active, the active list stays a pool
prefix, and it remains duplicate-free; after an out-of-order removal a
spawn can re-append a slot that is still active, as the counterexample
shows. -/
theorem C9_spawn_prefix_distinct :
    ∀ (now : ℤ) (sd : Isaiah.ResetSeed) (st : Isaiah.IState) (k : ℕ),
      st.stars = List.range k →
      st.stars.length ∉ st.stars ∧
      (∃ m : ℕ, (Isaiah.starSpawn now sd st).stars = List.range m) ∧
      (Isaiah.starSpawn now sd st).stars.Nodup := by
  intro now sd st k hk
  refine ⟨?_, ?_, ?_⟩
  · rw [hk]
    simp [List.mem_range]
  · rw [Isaiah.starSpawn_stars, hk]
    split_ifs with hc
    · exact ⟨k + 1, by simp [List.range_succ]⟩
    · exact ⟨k, rfl⟩
  · rw [Isaiah.starSpawn_stars, hk]
    split_ifs with hc
    · rw [List.length_range, ← List.range_succ]
      exact List.nodup_range _
    · exact List.nodup_range _

/-- C9 witness: a spawn from the two-element prefix keeps the active list
a duplicate-free prefix. -/
theorem C9_spawn_prefix_distinct_witness :
    let sd : Isaiah.ResetSeed := ⟨0, 0, 0, 0, 0, 0, 0⟩
    let st : Isaiah.IState :=
      { cannon := { x := 450, lives := 3, score := 0 },
        lasers := [], pool := List.replicate 6 Isaiah.defaultStar,
        stars := [0, 1],
        particles := [], last_laser_time := 0, last_star_spawn := 0,
        running := true }
    st.stars = List.range 2 ∧ (Isaiah.starSpawn 2700 sd st).stars.Nodup := by
  intro sd st
  exact ⟨rfl, (C9_spawn_prefix_distinct 2700 sd st 2 rfl).2.2⟩

/-- C10: after every Star.update the horizontal coordinate lies within
the side margins — between 20 and SCREEN_W - 20 = 880 in the capped
variant and between 10 and SCREEN_W - 10 = 790 in the bullet variant —
and whenever the clamp to a margin fires, that is whenever the moved
position x + vx lies outside the margin, the horizontal velocity is
negated. -/
theorem C10_star_update_clamp :
    ∀ (s : Isaiah.Star) (k : Kuba.Star),
      (20 ≤ (Isaiah.Star.update s).x ∧
        (Isaiah.Star.update s).x ≤ Isaiah.SCREEN_W - 20) ∧
      (s.x + s.vx < 20 → (Isaiah.Star.update s).vx = -s.vx) ∧
      (Isaiah.SCREEN_W - 20 < s.x + s.vx → (Isaiah.Star.update s).vx = -s.vx) ∧
      (10 ≤ (Kuba.Star.update k).x ∧
        (Kuba.Star.update k).x ≤ Kuba.SCREEN_W - 10) ∧
      (k.x + k.vx < 10 → (Kuba.Star.update k).vx = -k.vx) ∧
      (Kuba.SCREEN_W - 10 < k.x + k.vx → (Kuba.Star.update k).vx = -k.vx) := by
  intro s k
  refine ⟨⟨?_, ?_⟩, ?_, ?_, ⟨?_, ?_⟩, ?_, ?_⟩
  · rw [Isaiah.star_update_x]
    simp only [Isaiah.SCREEN_W]
    split_ifs with h1 h2 <;> linarith
  · rw [Isaiah.star_update_x]
    simp only [Isaiah.SCREEN_W]
    split_ifs with h1 h2 <;> linarith
  · intro h
    rw [Isaiah.star_update_vx, if_pos h]
  · intro h
    rw [Isaiah.star_update_vx, if_neg (by simp only [Isaiah.SCREEN_W] at h; linarith),
        if_pos h]
  · rw [Kuba.kstar_update_x]
    simp only [Kuba.SCREEN_W]
    split_ifs with h1 h2 <;> linarith
  · rw [Kuba.kstar_update_x]
    simp only [Kuba.SCREEN_W]
    split_ifs with h1 h2 <;> linarith
  · intro h
    rw [Kuba.kstar_update_vx, if_pos h]
  · intro h
    rw [Kuba.kstar_update_vx, if_neg (by simp only [Kuba.SCREEN_W] at h; linarith),
        if_pos h]

/-- C10 witness: a star moved past the left margin is clamped and its
horizontal velocity is negated. -/
theorem C10_star_update_clamp_witness :
    let s : Isaiah.Star :=
      { x := 30, y := 100, vx := -15, vy := 2, outer_r := 30,
        rotation := 0, rotation_speed := 0, trail := [] }
    let k : Kuba.Star :=
      { x := 400, y := 100, vx := 0, vy := 2, radius := 12, angle := 0,
        angle_speed := 0, trail := [], alive := true }
    s.x + s.vx < 20 ∧ (Isaiah.Star.update s).vx = -s.vx := by
  intro s k
  exact ⟨by norm_num, (C10_star_update_clamp s k).2.1 (by norm_num)⟩
